import Mathlib

/-!
Verification of the tube-joint-visualizer assembly state engine.

The definitions below are a shallow embedding of the core logic of the
application component `TubeJointVisualizer` (the version with history,
drag and export support): the `Tube` class, the joint-placement logic of
`addTube`, the snap function `snapAngleFunc`, the removal and clear
operations, the snapshot history (`addToHistory`, `undo`, `redo`,
`restoreState`), the pointer-drag handlers (`onMouseDown` hit branch,
`onMouseMove`, `onMouseUp`) and `exportData`.

JavaScript numbers are modelled as real numbers.  The Three.js helpers
that the code calls (`Vector3.applyEuler` with the default 'XYZ' Euler
order, `Ray.intersectPlane`, `Ray.distanceToPlane`,
`Plane.distanceToPoint`, `Ray.at`) are embedded following their Three.js
source.  Render-only state (meshes, wireframes, highlight meshes, the
camera) is outside the model; the spec declares rendering an external
collaborator.

Two embeddings of the component state are given:
* the value model (`AppState` and its operations), where `position` and
  `rotation` are plain values — adequate for every operation that does
  not mutate a `Vector3`/`Euler` in place while it is aliased;
* the reference model (namespace `RefModel`), where every
  `Vector3`/`Euler` lives in an explicit heap and tubes hold references,
  exactly mirroring the JavaScript object semantics — needed for the
  snapshot-aliasing claim.
-/

open Real

/-- A Three.js `Vector3` (also used for `Euler`, whose order is always the
default 'XYZ' in this code). -/
@[ext]
structure Vec3 where
  x : ℝ
  y : ℝ
  z : ℝ

instance : Add Vec3 := ⟨fun a b => ⟨a.x + b.x, a.y + b.y, a.z + b.z⟩⟩

/-- Dot product, as in `Vector3.dot`. -/
def Vec3.dot (a b : Vec3) : ℝ := a.x * b.x + a.y * b.y + a.z * b.z

/-- Rotation about the x axis applied to a vector. -/
noncomputable def rotXv (t : ℝ) (v : Vec3) : Vec3 :=
  ⟨v.x, v.y * Real.cos t - v.z * Real.sin t, v.y * Real.sin t + v.z * Real.cos t⟩

/-- Rotation about the y axis applied to a vector. -/
noncomputable def rotYv (t : ℝ) (v : Vec3) : Vec3 :=
  ⟨v.x * Real.cos t + v.z * Real.sin t, v.y, -v.x * Real.sin t + v.z * Real.cos t⟩

/-- Rotation about the z axis applied to a vector. -/
noncomputable def rotZv (t : ℝ) (v : Vec3) : Vec3 :=
  ⟨v.x * Real.cos t - v.y * Real.sin t, v.x * Real.sin t + v.y * Real.cos t, v.z⟩

/-- `Vector3.applyEuler` for the default 'XYZ' Euler order: the rotation
matrix is `Rx(e.x) * Ry(e.y) * Rz(e.z)` (Three.js
`Matrix4.makeRotationFromEuler`, case 'XYZ'). -/
noncomputable def applyEuler (e : Vec3) (v : Vec3) : Vec3 :=
  rotXv e.x (rotYv e.y (rotZv e.z v))

/-- A Three.js `Plane` given by `normal` and `constant`. -/
structure JPlane where
  normal : Vec3
  constant : ℝ

/-- A Three.js `Ray`. -/
structure JRay where
  origin : Vec3
  direction : Vec3

/-- `Ray.at(t)`: `origin + t * direction`. -/
noncomputable def JRay.at (ray : JRay) (t : ℝ) : Vec3 :=
  ⟨ray.origin.x + t * ray.direction.x,
   ray.origin.y + t * ray.direction.y,
   ray.origin.z + t * ray.direction.z⟩

open Classical in
/-- `Ray.distanceToPlane`:
`denominator = plane.normal.dot(this.direction)`; when it is `0` the ray is
parallel — return `0` if the origin lies on the plane, else `null`;
otherwise `t = -(origin.dot(normal) + constant) / denominator`, returned only
when `t >= 0`. -/
noncomputable def distanceToPlane (ray : JRay) (plane : JPlane) : Option ℝ :=
  let denominator := plane.normal.dot ray.direction
  if denominator = 0 then
    if plane.normal.dot ray.origin + plane.constant = 0 then some 0 else none
  else
    let t := -(ray.origin.dot plane.normal + plane.constant) / denominator
    if 0 ≤ t then some t else none

/-- `Ray.intersectPlane(plane, target)`: `null` when `distanceToPlane` is
`null`, else the point `ray.at(t)`. -/
noncomputable def intersectPlane (ray : JRay) (plane : JPlane) : Option Vec3 :=
  (distanceToPlane ray plane).map ray.at

/-- The drag reference plane: `new THREE.Plane(new THREE.Vector3(0, 1, 0), 0)`. -/
def floorPlane : JPlane := ⟨⟨0, 1, 0⟩, 0⟩

/-! ## The snap function -/

/-- The fixed snap set of `snapAngleFunc`. -/
noncomputable def snapAngles : List ℝ := [0, 30, 45, 60, 90, 120, 135, 150, 180]

/-- One step of the `reduce` callback in `snapAngleFunc`:
`Math.abs(curr - angleValue) < Math.abs(prev - angleValue) ? curr : prev`. -/
noncomputable def snapStep (angleValue prev curr : ℝ) : ℝ :=
  if |curr - angleValue| < |prev - angleValue| then curr else prev

/-- `snapAngles.reduce(...)`: JavaScript `reduce` with no initial value
starts from the first element and folds over the rest. -/
noncomputable def snapReduce (angleValue : ℝ) : ℝ :=
  snapAngles.tail.foldl (snapStep angleValue) snapAngles.headI

/-- `snapAngleFunc`: returns the input unchanged when `snapToAngle` is
off, otherwise the reduce over the snap set. -/
noncomputable def snapAngleFunc (snapToAngle : Bool) (angleValue : ℝ) : ℝ :=
  if snapToAngle then snapReduce angleValue else angleValue

/-! ## The value model of the component state -/

/-- A `Tube`, with its render-only fields (`mesh`, `wireframe`,
`highlightMesh`) omitted.  `position`/`rotation` are values here; the
reference model below keeps them in a heap. -/
@[ext]
structure Tube where
  id : Nat
  width : ℝ
  height : ℝ
  thickness : ℝ
  length : ℝ
  position : Vec3
  rotation : Vec3
  isSelected : Bool

/-- The UI parameters read by `addTube`: the `tubeType`, `width`,
`height`, `thickness`, `length`, `angle` and `snapToAngle` component
states. -/
structure Params where
  tubeType : String
  width : ℝ
  height : ℝ
  thickness : ℝ
  length : ℝ
  angle : ℝ
  snapToAngle : Bool

/-- The component state relevant to the assembly engine: `tubes`,
`selectedTube`, the drag session ref `draggedTubeRef`, `history` and
`historyIndex`. -/
structure AppState where
  tubes : List Tube
  selectedTube : Option Nat
  draggedTube : Option Nat
  history : List (List Tube)
  historyIndex : Int

/-- The initial component state: `useState([])`, `useState(null)`,
`useState([])`, `useState(-1)`. -/
def initState : AppState :=
  { tubes := [], selectedTube := none, draggedTube := none,
    history := [], historyIndex := -1 }

/-- `Tube.clone()`: copies every scalar field, `position.clone()`,
`rotation.clone()`, then the `id` and `isSelected`.  In the value model
this reproduces the tube exactly. -/
def cloneTube (t : Tube) : Tube :=
  { id := t.id, width := t.width, height := t.height,
    thickness := t.thickness, length := t.length,
    position := t.position, rotation := t.rotation,
    isSelected := t.isSelected }

/-- `addToHistory(tubesToSave)`: snapshot by cloning each tube, truncate
the stack after the cursor (`history.slice(0, historyIndex + 1)`), append
the snapshot, move the cursor to the new last index. -/
def addToHistory (tubesToSave : List Tube) (s : AppState) : AppState :=
  let snapshot := tubesToSave.map cloneTube
  let newHistory := s.history.take (s.historyIndex + 1).toNat ++ [snapshot]
  { s with history := newHistory, historyIndex := (newHistory.length : Int) - 1 }

/-- The tube built by `restoreState` from one stored tube: a fresh `Tube`
with the stored fields (`isSelected` reset by the constructor) and the
stored `id` copied over. -/
def restoreTube (tubeData : Tube) : Tube :=
  { id := tubeData.id, width := tubeData.width, height := tubeData.height,
    thickness := tubeData.thickness, length := tubeData.length,
    position := tubeData.position, rotation := tubeData.rotation,
    isSelected := false }

/-- `restoreState(state)`: replace the live tube list with tubes rebuilt
from the snapshot. -/
def restoreState (state : List Tube) (s : AppState) : AppState :=
  { s with tubes := state.map restoreTube }

/-- `undo()`: when `historyIndex > 0`, restore `history[historyIndex - 1]`
and decrement the cursor; otherwise do nothing. -/
def undo (s : AppState) : AppState :=
  if s.historyIndex > 0 then
    let previousState := (s.history[(s.historyIndex - 1).toNat]?).getD []
    { restoreState previousState s with historyIndex := s.historyIndex - 1 }
  else s

/-- `redo()`: when `historyIndex < history.length - 1`, restore
`history[historyIndex + 1]` and increment the cursor; otherwise nothing. -/
def redo (s : AppState) : AppState :=
  if s.historyIndex < (s.history.length : Int) - 1 then
    let nextState := (s.history[(s.historyIndex + 1).toNat]?).getD []
    { restoreState nextState s with historyIndex := s.historyIndex + 1 }
  else s

/-- `addTube()`: build the new tube (square tubes reuse `width` for
`height`), place it against the last tube when one exists — joint point at
the last tube's position plus its rotated half length, new rotation adds
the snapped angle to the predecessor's yaw, offset from the joint along
the new tube's own rotated forward axis — then append and record
history.  The constructor performs no dimension validation. -/
noncomputable def addTube (p : Params) (newId : Nat) (s : AppState) : AppState :=
  let finalAngle := if p.snapToAngle then snapAngleFunc p.snapToAngle p.angle else p.angle
  let newTube0 : Tube :=
    { id := newId,
      width := if p.tubeType = "square" then p.width else p.width,
      height := if p.tubeType = "square" then p.width else p.height,
      thickness := p.thickness, length := p.length,
      position := ⟨0, 0, 0⟩, rotation := ⟨0, 0, 0⟩, isSelected := false }
  let newTube : Tube :=
    match s.tubes.getLast? with
    | some lastTube =>
        let angleRad := finalAngle * π / 180
        let jointPosition :=
          applyEuler lastTube.rotation ⟨0, 0, lastTube.length / 2⟩ + lastTube.position
        let rot : Vec3 :=
          ⟨lastTube.rotation.x, lastTube.rotation.y + angleRad, lastTube.rotation.z⟩
        let offsetFromJoint := applyEuler rot ⟨0, 0, newTube0.length / 2⟩
        { newTube0 with rotation := rot, position := jointPosition + offsetFromJoint }
    | none => newTube0
  let newTubesList := s.tubes ++ [newTube]
  addToHistory newTubesList { s with tubes := newTubesList }

/-- `removeTube(tubeId)`: filter the tube out, and only when it was found
update the list, clear a matching selection and record history; with no
match nothing at all happens. -/
def removeTube (tubeId : Nat) (s : AppState) : AppState :=
  let filteredTubes := s.tubes.filter (fun t => t.id != tubeId)
  match s.tubes.find? (fun t => t.id == tubeId) with
  | some _ =>
      let s1 : AppState :=
        { s with tubes := filteredTubes,
                 selectedTube :=
                   if s.selectedTube = some tubeId then none else s.selectedTube }
      addToHistory filteredTubes s1
  | none => s

/-- `clearAll()`: empty the assembly, clear the selection and reset the
history stack to `[]` with cursor `-1`. -/
def clearAll (s : AppState) : AppState :=
  { s with tubes := [], selectedTube := none, history := [], historyIndex := -1 }

/-- The hit branch of `onMouseDown`: the raycast found a tube, so it is
selected and the drag session starts on it. -/
def onMouseDownHit (tubeId : Nat) (s : AppState) : AppState :=
  { s with selectedTube := some tubeId, draggedTube := some tubeId }

/-- `onMouseMove` while a tube is dragged: the code allocates
`const intersection = new THREE.Vector3()` (initialised to `(0,0,0)`),
calls `ray.intersectPlane(plane, intersection)` ignoring its return value,
and then tests `if (intersection)` — a check on the `Vector3` object
itself, which is always truthy.  The position update therefore always
runs, using `(0,0,0)` whenever the intersection failed.  Without a drag
session the handler only moves the camera, which is outside the model. -/
noncomputable def onMouseMove (ray : JRay) (s : AppState) : AppState :=
  match s.draggedTube with
  | some draggedId =>
      let intersection := (intersectPlane ray floorPlane).getD ⟨0, 0, 0⟩
      { s with tubes := s.tubes.map (fun tube =>
          if tube.id = draggedId then { tube with position := intersection } else tube) }
  | none => s

/-- A JSON value, as far as `exportData` produces them. -/
inductive JValue where
  | num (v : ℝ)
  | str (s : String)
  | obj (fields : List (String × JValue))

/-- The field names of a JSON record. -/
def recordKeys : JValue → List String
  | .obj fields => fields.map Prod.fst
  | _ => []

/-- Field lookup in a JSON record. -/
def recordField (key : String) : JValue → Option JValue
  | .obj fields => (fields.find? (fun f => f.1 == key)).map Prod.snd
  | _ => none

/-- `exportData` (the serialised array only; the blob/anchor download
mechanics are browser API calls): one record per tube, in order, with a
`type` field holding the current `tubeType` UI state and then the tube's
scalar and pose fields. -/
def exportData (tubeType : String) (tubes : List Tube) : List JValue :=
  tubes.map (fun tube => JValue.obj
    [("type", JValue.str tubeType),
     ("width", JValue.num tube.width),
     ("height", JValue.num tube.height),
     ("thickness", JValue.num tube.thickness),
     ("length", JValue.num tube.length),
     ("position", JValue.obj
        [("x", JValue.num tube.position.x),
         ("y", JValue.num tube.position.y),
         ("z", JValue.num tube.position.z)]),
     ("rotation", JValue.obj
        [("x", JValue.num tube.rotation.x),
         ("y", JValue.num tube.rotation.y),
         ("z", JValue.num tube.rotation.z)])])

/-! ## Operation sequences for the undo/redo round trip -/

/-- One user-level mutation of the assembly, for quantifying over finite
operation sequences. -/
inductive Op where
  | add (p : Params) (newId : Nat)
  | remove (tubeId : Nat)
  | clear

/-- Apply one operation. -/
noncomputable def applyOp (s : AppState) : Op → AppState
  | .add p newId => addTube p newId s
  | .remove tubeId => removeTube tubeId s
  | .clear => clearAll s

/-- Run a sequence of operations from the initial state. -/
noncomputable def applyOps (ops : List Op) : AppState :=
  ops.foldl applyOp initState

/-- Iterated `undo`. -/
def undoN : Nat → AppState → AppState
  | 0, s => s
  | n + 1, s => undoN n (undo s)

/-- Iterated `redo`. -/
def redoN : Nat → AppState → AppState
  | 0, s => s
  | n + 1, s => redoN n (redo s)

/-- The fields of a tube the spec compares across an undo/redo round
trip: id, dimensions, position, rotation (object identity and selection
flags excluded). -/
def obs (t : Tube) : Nat × (ℝ × ℝ × ℝ × ℝ) × Vec3 × Vec3 :=
  (t.id, (t.width, t.height, t.thickness, t.length), t.position, t.rotation)

/-- Pointwise observation of a tube list. -/
def obsList (l : List Tube) : List (Nat × (ℝ × ℝ × ℝ × ℝ) × Vec3 × Vec3) :=
  l.map obs

/-! ## The reference model

JavaScript objects are passed by reference: `THREE.Vector3`/`THREE.Euler`
values are mutable cells.  Here every such cell lives in a heap (a list of
`Vec3` addressed by allocation index) and tubes store cell references.
This mirrors which constructor calls allocate (`new`, `.clone()`), which
pass references through (`this.position = position` in the `Tube`
constructor, `restoreState` passing `tubeData.position` straight back into
`new Tube(...)`) and which mutate a cell in place
(`tube.position.copy(intersection)` during a drag). -/

namespace RefModel

/-- A `Tube` whose `position`/`rotation` are references into the heap. -/
structure Tube where
  id : Nat
  width : ℝ
  height : ℝ
  thickness : ℝ
  length : ℝ
  posRef : Nat
  rotRef : Nat
  isSelected : Bool

/-- The component state with the explicit `Vector3`/`Euler` heap. -/
structure HState where
  heap : List Vec3
  tubes : List Tube
  selectedTube : Option Nat
  draggedTube : Option Nat
  history : List (List Tube)
  historyIndex : Int

/-- Dereference a cell. -/
def readRef (heap : List Vec3) (r : Nat) : Vec3 := (heap[r]?).getD ⟨0, 0, 0⟩

/-- In-place mutation of a cell (`.copy(...)` / `.set(...)` on an existing
`Vector3`). -/
def writeRef (heap : List Vec3) (r : Nat) (v : Vec3) : List Vec3 := heap.set r v

/-- Allocation of a fresh `Vector3` (`new THREE.Vector3(...)` or
`.clone()`). -/
def alloc (heap : List Vec3) (v : Vec3) : List Vec3 × Nat := (heap ++ [v], heap.length)

/-- `Tube.clone()`: a fresh tube with freshly allocated copies of the
current position and rotation cells, keeping `id` and `isSelected`. -/
def cloneTube (heap : List Vec3) (t : Tube) : List Vec3 × Tube :=
  let ap := alloc heap (readRef heap t.posRef)
  let ar := alloc ap.1 (readRef ap.1 t.rotRef)
  (ar.1, { t with posRef := ap.2, rotRef := ar.2 })

/-- Clone a whole tube list, threading the heap. -/
def cloneList (heap : List Vec3) : List Tube → List Vec3 × List Tube
  | [] => (heap, [])
  | t :: ts =>
      let c := cloneTube heap t
      let rest := cloneList c.1 ts
      (rest.1, c.2 :: rest.2)

/-- `addToHistory(tubesToSave)` in the reference model: the snapshot is a
list of clones (fresh cells), the stack is truncated after the cursor and
the snapshot appended. -/
def addToHistory (tubesToSave : List Tube) (s : HState) : HState :=
  let c := cloneList s.heap tubesToSave
  let newHistory := s.history.take (s.historyIndex + 1).toNat ++ [c.2]
  { s with heap := c.1, history := newHistory,
           historyIndex := (newHistory.length : Int) - 1 }

/-- `restoreState(state)`: each restored tube is a fresh `Tube` object,
but `new Tube(..., tubeData.position, tubeData.rotation)` hands the
snapshot's own cells to the live tube — the references are shared, no
copy is made. -/
def restoreState (state : List Tube) (s : HState) : HState :=
  { s with tubes := state.map (fun tubeData => { tubeData with isSelected := false }) }

/-- `undo()` in the reference model. -/
def undo (s : HState) : HState :=
  if s.historyIndex > 0 then
    let previousState := (s.history[(s.historyIndex - 1).toNat]?).getD []
    { restoreState previousState s with historyIndex := s.historyIndex - 1 }
  else s

/-- `addTube()` in the reference model: fresh position and rotation cells
for the new tube; when a predecessor exists, its cells are read, and the
new tube's own cells are overwritten in place
(`newTube.rotation.set(...)`, `newTube.position.copy(...).add(...)`). -/
noncomputable def addTube (p : Params) (newId : Nat) (s : HState) : HState :=
  let finalAngle := if p.snapToAngle then snapAngleFunc p.snapToAngle p.angle else p.angle
  let ap := alloc s.heap ⟨0, 0, 0⟩
  let ar := alloc ap.1 ⟨0, 0, 0⟩
  let newTube : Tube :=
    { id := newId,
      width := if p.tubeType = "square" then p.width else p.width,
      height := if p.tubeType = "square" then p.width else p.height,
      thickness := p.thickness, length := p.length,
      posRef := ap.2, rotRef := ar.2, isSelected := false }
  let heap3 :=
    match s.tubes.getLast? with
    | some lastTube =>
        let angleRad := finalAngle * π / 180
        let lastRot := readRef ar.1 lastTube.rotRef
        let jointPosition :=
          applyEuler lastRot ⟨0, 0, lastTube.length / 2⟩ + readRef ar.1 lastTube.posRef
        let rot : Vec3 := ⟨lastRot.x, lastRot.y + angleRad, lastRot.z⟩
        let offsetFromJoint := applyEuler rot ⟨0, 0, newTube.length / 2⟩
        writeRef (writeRef ar.1 ar.2 rot) ap.2 (jointPosition + offsetFromJoint)
    | none => ar.1
  let newTubesList := s.tubes ++ [newTube]
  addToHistory newTubesList { s with heap := heap3, tubes := newTubesList }

/-- The hit branch of `onMouseDown`. -/
def onMouseDownHit (tubeId : Nat) (s : HState) : HState :=
  { s with selectedTube := some tubeId, draggedTube := some tubeId }

/-- `onMouseMove` during a drag: `tube.position.copy(intersection)`
mutates the dragged tube's position cell in place — any alias to that
cell observes the change.  The always-truthy `if (intersection)` check
means the write happens even when `intersectPlane` returned `null`, in
which case the written value is the default `(0,0,0)`. -/
noncomputable def onMouseMove (ray : JRay) (s : HState) : HState :=
  match s.draggedTube with
  | some draggedId =>
      let intersection := (intersectPlane ray floorPlane).getD ⟨0, 0, 0⟩
      { s with heap := s.tubes.foldl (fun h tube =>
          if tube.id = draggedId then writeRef h tube.posRef intersection else h) s.heap }
  | none => s

end RefModel

/-! ## Derived definitions and concrete states used by the development -/

/-- The state invariant holding after any sequence of add/remove/clear
operations: the history cursor sits at the last entry, and that entry
records the live tubes field-for-field. -/
def GoodState (s : AppState) : Prop :=
  s.historyIndex = (s.history.length : Int) - 1 ∧
  ∀ snap, s.history.getLast? = some snap → obsList snap = obsList s.tubes

/-- The default UI parameters (50 x 30 x 3 x 100, angle 90), snap off. -/
noncomputable def demoParams : Params :=
  { tubeType := "rectangular", width := 50, height := 30, thickness := 3,
    length := 100, angle := 90, snapToAngle := false }

/-- Parameters violating the dimension invariant: thickness 10 is not less
than min(width, height)/2 = 5. -/
noncomputable def badParams : Params :=
  { tubeType := "rectangular", width := 10, height := 10, thickness := 10,
    length := 100, angle := 90, snapToAngle := false }

/-- A pointer ray parallel to (and above) the floor plane. -/
noncomputable def parallelRay : JRay := ⟨⟨1, 5, 1⟩, ⟨1, 0, 0⟩⟩

/-- A drag session in progress: one default tube added, pointer-down on
it, and one successful move event that carried it to (2, 0, 3). -/
noncomputable def midDragState : AppState :=
  onMouseMove ⟨⟨2, 10, 3⟩, ⟨0, -1, 0⟩⟩ (onMouseDownHit 1 (addTube demoParams 1 initState))

theorem Vec3.add_def (a b : Vec3) :
    a + b = ⟨a.x + b.x, a.y + b.y, a.z + b.z⟩ := rfl

/-! ## Lemmas about the snap fold -/

theorem snapFold_mem (a : ℝ) (l : List ℝ) (p : ℝ) :
    l.foldl (snapStep a) p ∈ p :: l := by
  induction l generalizing p with
  | nil => simp
  | cons c t ih =>
      have h := ih (snapStep a p c)
      by_cases hc : |c - a| < |p - a|
      · simp only [snapStep, if_pos hc] at h
        rcases List.mem_cons.mp h with h | h
        · simp [List.foldl_cons, snapStep, if_pos hc, h]
        · simp only [List.foldl_cons, snapStep, if_pos hc]
          exact List.mem_cons_of_mem _ (List.mem_cons_of_mem _ h)
      · simp only [snapStep, if_neg hc] at h
        rcases List.mem_cons.mp h with h | h
        · simp [List.foldl_cons, snapStep, if_neg hc, h]
        · simp only [List.foldl_cons, snapStep, if_neg hc]
          exact List.mem_cons_of_mem _ (List.mem_cons_of_mem _ h)

theorem snapFold_min (a : ℝ) (l : List ℝ) (p : ℝ) :
    ∀ c ∈ p :: l, |l.foldl (snapStep a) p - a| ≤ |c - a| := by
  induction l generalizing p with
  | nil =>
      intro c hc
      rcases List.mem_cons.mp hc with h | h
      · simp [h]
      · simp at h
  | cons c0 t ih =>
      intro c hc
      have hstep : |snapStep a p c0 - a| ≤ |p - a| ∧ |snapStep a p c0 - a| ≤ |c0 - a| := by
        unfold snapStep
        by_cases hlt : |c0 - a| < |p - a|
        · rw [if_pos hlt]; exact ⟨le_of_lt hlt, le_refl _⟩
        · rw [if_neg hlt]; exact ⟨le_refl _, le_of_not_lt hlt⟩
      have hhead := ih (snapStep a p c0) (snapStep a p c0) (List.mem_cons_self _ _)
      rcases List.mem_cons.mp hc with h | h
      · subst h
        exact le_trans (by simpa using hhead) hstep.1
      · rcases List.mem_cons.mp h with h | h
        · subst h
          exact le_trans (by simpa using hhead) hstep.2
        · exact ih (snapStep a p c0) c (List.mem_cons_of_mem _ h)

theorem snapFold_tie (a : ℝ) (l : List ℝ) (p : ℝ)
    (hs : (p :: l).Pairwise (· < ·)) :
    ∀ c ∈ p :: l, |c - a| = |l.foldl (snapStep a) p - a| → l.foldl (snapStep a) p ≤ c := by
  induction l generalizing p with
  | nil =>
      intro c hc _
      rcases List.mem_cons.mp hc with h | h
      · simp [h]
      · simp at h
  | cons c0 t ih =>
      have hpl := List.pairwise_cons.mp hs
      have hp_lt : ∀ x ∈ c0 :: t, p < x := hpl.1
      have hct : (c0 :: t).Pairwise (· < ·) := hpl.2
      have hc0t := List.pairwise_cons.mp hct
      intro c hc htie
      by_cases hlt : |c0 - a| < |p - a|
      · -- the step keeps c0
        have hfold : (c0 :: t).foldl (snapStep a) p = t.foldl (snapStep a) c0 := by
          simp [List.foldl_cons, snapStep, if_pos hlt]
        rw [hfold] at htie ⊢
        rcases List.mem_cons.mp hc with h | h
        · -- c = p : impossible tie, the fold result is strictly closer than p
          subst h
          have hmin := snapFold_min a t c0 c0 (List.mem_cons_self _ _)
          have : |t.foldl (snapStep a) c0 - a| < |c - a| := lt_of_le_of_lt hmin hlt
          rw [htie] at this
          exact absurd this (lt_irrefl _)
        · exact ih c0 hct c h htie
      · -- the step keeps p
        have hfold : (c0 :: t).foldl (snapStep a) p = t.foldl (snapStep a) p := by
          simp [List.foldl_cons, snapStep, if_neg hlt]
        rw [hfold] at htie ⊢
        have hpt : (p :: t).Pairwise (· < ·) := by
          rw [List.pairwise_cons]
          exact ⟨fun x hx => hp_lt x (List.mem_cons_of_mem _ hx), hc0t.2⟩
        rcases List.mem_cons.mp hc with h | h
        · exact ih p hpt c (by rw [h]; exact List.mem_cons_self _ _) htie
        · rcases List.mem_cons.mp h with h | h
          · -- c = c0 : the fold ties with c0, hence also with p, so fold ≤ p < c0
            subst h
            have hmin_p := snapFold_min a t p p (List.mem_cons_self _ _)
            have hle_c : |t.foldl (snapStep a) p - a| ≤ |p - a| := hmin_p
            have hge : |p - a| ≤ |c - a| := le_of_not_lt hlt
            have hge2 : |p - a| ≤ |t.foldl (snapStep a) p - a| := by
              rw [htie] at hge; exact hge
            have htie_p : |p - a| = |t.foldl (snapStep a) p - a| :=
              le_antisymm hge2 hle_c
            have hfp := ih p hpt p (List.mem_cons_self _ _) htie_p
            exact le_of_lt (lt_of_le_of_lt hfp (hp_lt c (List.mem_cons_self _ _)))
          · exact ih p hpt c (List.mem_cons_of_mem _ h) htie

theorem snapAngleFunc_true_eq (a : ℝ) :
    snapAngleFunc true a =
      List.foldl (snapStep a) 0 [30, 45, 60, 90, 120, 135, 150, 180] := by
  simp [snapAngleFunc, snapReduce, snapAngles]

theorem snapAngles_pairwise : snapAngles.Pairwise (· < ·) := by
  norm_num [snapAngles]

theorem snap_mem (a : ℝ) : snapAngleFunc true a ∈ snapAngles := by
  rw [snapAngleFunc_true_eq]
  have h := snapFold_mem a [30, 45, 60, 90, 120, 135, 150, 180] 0
  simpa [snapAngles] using h

theorem snap_min (a : ℝ) :
    ∀ c ∈ snapAngles, |snapAngleFunc true a - a| ≤ |c - a| := by
  intro c hc
  rw [snapAngleFunc_true_eq]
  exact snapFold_min a [30, 45, 60, 90, 120, 135, 150, 180] 0 c
    (by simpa [snapAngles] using hc)

theorem snap_tie (a : ℝ) :
    ∀ c ∈ snapAngles, |c - a| = |snapAngleFunc true a - a| → snapAngleFunc true a ≤ c := by
  intro c hc htie
  rw [snapAngleFunc_true_eq] at htie ⊢
  refine snapFold_tie a [30, 45, 60, 90, 120, 135, 150, 180] 0 ?_ c
    (by simpa [snapAngles] using hc) htie
  have h := snapAngles_pairwise
  simpa [snapAngles] using h

theorem snap_val_37 : snapAngleFunc true 37 = 30 := by
  norm_num [snapAngleFunc, snapReduce, snapAngles, snapStep, List.foldl, abs]

theorem snap_val_30 : snapAngleFunc true 30 = 30 := by
  norm_num [snapAngleFunc, snapReduce, snapAngles, snapStep, List.foldl, abs]

theorem snap_val_45 : snapAngleFunc true 45 = 45 := by
  norm_num [snapAngleFunc, snapReduce, snapAngles, snapStep, List.foldl, abs]

theorem snap_val_15 : snapAngleFunc true 15 = 0 := by
  norm_num [snapAngleFunc, snapReduce, snapAngles, snapStep, List.foldl, abs]

theorem snap_val_0 : snapAngleFunc true 0 = 0 := by
  norm_num [snapAngleFunc, snapReduce, snapAngles, snapStep, List.foldl, abs]

/-! ## History invariants and the undo/redo round trip -/

theorem cloneTube_eq (t : Tube) : cloneTube t = t := rfl

theorem obs_restoreTube (t : Tube) : obs (restoreTube t) = obs t := rfl

theorem obsList_map_restoreTube (l : List Tube) :
    obsList (l.map restoreTube) = obsList l := by
  simp only [obsList, List.map_map]
  congr 1

theorem goodState_init : GoodState initState := by
  constructor
  · simp [initState]
  · intro snap hsnap
    simp [initState] at hsnap

theorem goodState_addToHistory (l : List Tube) (s : AppState) (htl : s.tubes = l) :
    GoodState (addToHistory l s) := by
  constructor
  · simp [addToHistory]
  · intro snap hsnap
    simp only [addToHistory, List.getLast?_concat, Option.some.injEq] at hsnap
    rw [← hsnap]
    simp only [addToHistory, obsList, List.map_map, htl]
    congr 1

theorem goodState_addTube (p : Params) (newId : Nat) (s : AppState) :
    GoodState (addTube p newId s) := by
  unfold addTube
  exact goodState_addToHistory _ _ rfl

theorem goodState_removeTube (tubeId : Nat) (s : AppState) (hg : GoodState s) :
    GoodState (removeTube tubeId s) := by
  unfold removeTube
  cases s.tubes.find? (fun t => t.id == tubeId) with
  | none => exact hg
  | some t => exact goodState_addToHistory _ _ rfl

theorem goodState_clearAll (s : AppState) : GoodState (clearAll s) := by
  constructor
  · simp [clearAll]
  · intro snap hsnap
    simp [clearAll] at hsnap

theorem goodState_applyOps (ops : List Op) : GoodState (applyOps ops) := by
  unfold applyOps
  induction ops using List.reverseRecOn with
  | nil => exact goodState_init
  | append_singleton l op ih =>
      rw [List.foldl_append, List.foldl_cons, List.foldl_nil]
      cases op with
      | add p newId => exact goodState_addTube p newId _
      | remove tubeId => exact goodState_removeTube tubeId _ ih
      | clear => exact goodState_clearAll _

theorem undo_spec (s : AppState) (h : 0 < s.historyIndex) :
    undo s = { s with
      tubes := ((s.history[(s.historyIndex - 1).toNat]?).getD []).map restoreTube,
      historyIndex := s.historyIndex - 1 } := by
  simp [undo, if_pos h, restoreState]

theorem undoN_spec (j : Nat) (s : AppState) (h : (j : Int) ≤ s.historyIndex) :
    (undoN j s).history = s.history ∧
    (undoN j s).historyIndex = s.historyIndex - j ∧
    (undoN j s).selectedTube = s.selectedTube ∧
    ((j = 0 ∧ (undoN j s).tubes = s.tubes) ∨
     (1 ≤ j ∧ (undoN j s).tubes =
       ((s.history[(s.historyIndex - j).toNat]?).getD []).map restoreTube)) := by
  induction j generalizing s with
  | zero => simp [undoN]
  | succ j ih =>
      have hpos : 0 < s.historyIndex := by
        have : ((j : Int) + 1) ≤ s.historyIndex := by push_cast at h ⊢; omega
        omega
      have hu := undo_spec s hpos
      have hstep : undoN (j + 1) s = undoN j (undo s) := rfl
      have hidx : (undo s).historyIndex = s.historyIndex - 1 := by rw [hu]
      have hhist : (undo s).history = s.history := by rw [hu]
      have hsel : (undo s).selectedTube = s.selectedTube := by rw [hu]
      have htub : (undo s).tubes =
          ((s.history[(s.historyIndex - 1).toNat]?).getD []).map restoreTube := by rw [hu]
      have hj : (j : Int) ≤ (undo s).historyIndex := by
        rw [hidx]; push_cast at h ⊢; omega
      obtain ⟨ih1, ih2, ih3, ih4⟩ := ih (undo s) hj
      rw [hstep]
      refine ⟨by rw [ih1, hhist], by rw [ih2, hidx]; push_cast; ring, by rw [ih3, hsel], ?_⟩
      right
      refine ⟨by omega, ?_⟩
      rcases ih4 with ⟨hj0, ht⟩ | ⟨hj1, ht⟩
      · subst hj0
        rw [ht, htub]
        norm_num
      · rw [ht, hhist, hidx]
        have : s.historyIndex - 1 - (j : Int) = s.historyIndex - (j + 1 : Nat) := by
          push_cast; ring
        rw [this]

theorem redo_spec (s : AppState) (h : s.historyIndex < (s.history.length : Int) - 1) :
    redo s = { s with
      tubes := ((s.history[(s.historyIndex + 1).toNat]?).getD []).map restoreTube,
      historyIndex := s.historyIndex + 1 } := by
  simp [redo, if_pos h, restoreState]

theorem redoN_spec (j : Nat) (s : AppState)
    (h : s.historyIndex + j ≤ (s.history.length : Int) - 1) :
    (redoN j s).history = s.history ∧
    (redoN j s).historyIndex = s.historyIndex + j ∧
    ((j = 0 ∧ (redoN j s).tubes = s.tubes) ∨
     (1 ≤ j ∧ (redoN j s).tubes =
       ((s.history[(s.historyIndex + j).toNat]?).getD []).map restoreTube)) := by
  induction j generalizing s with
  | zero => simp [redoN]
  | succ j ih =>
      have hlt : s.historyIndex < (s.history.length : Int) - 1 := by
        push_cast at h; omega
      have hr := redo_spec s hlt
      have hstep : redoN (j + 1) s = redoN j (redo s) := rfl
      have hidx : (redo s).historyIndex = s.historyIndex + 1 := by rw [hr]
      have hhist : (redo s).history = s.history := by rw [hr]
      have htub : (redo s).tubes =
          ((s.history[(s.historyIndex + 1).toNat]?).getD []).map restoreTube := by rw [hr]
      have hj : (redo s).historyIndex + j ≤ ((redo s).history.length : Int) - 1 := by
        rw [hidx, hhist]; push_cast at h ⊢; omega
      obtain ⟨ih1, ih2, ih3⟩ := ih (redo s) hj
      rw [hstep]
      refine ⟨by rw [ih1, hhist], by rw [ih2, hidx]; push_cast; ring, ?_⟩
      right
      refine ⟨by omega, ?_⟩
      rcases ih3 with ⟨hj0, ht⟩ | ⟨hj1, ht⟩
      · subst hj0
        rw [ht, htub]
        norm_num
      · rw [ht, hhist, hidx]
        have : s.historyIndex + 1 + (j : Int) = s.historyIndex + (j + 1 : Nat) := by
          push_cast; ring
        rw [this]

/-- Claim C2: for every finite sequence of addSegment/removeSegment/clearAll
operations starting from the empty assembly, calling undo() repeatedly until
it reports nothing to undo (historyIndex.toNat many times, after which a
further undo is a no-op) and then calling redo() the same number of times
reproduces the assembly state that existed before the undos, field-for-field
(ids, dimensions, positions, rotations, order). -/
theorem c2_undo_redo_roundtrip (ops : List Op) :
    obsList ((redoN (applyOps ops).historyIndex.toNat
        ((undoN (applyOps ops).historyIndex.toNat) (applyOps ops))).tubes)
      = obsList (applyOps ops).tubes ∧
    undo (undoN (applyOps ops).historyIndex.toNat (applyOps ops))
      = undoN (applyOps ops).historyIndex.toNat (applyOps ops) := by
  obtain ⟨hidx, hlast⟩ := goodState_applyOps ops
  set s := applyOps ops with hs
  by_cases hpos : 0 < s.historyIndex
  · have hk : ((s.historyIndex.toNat : Int)) = s.historyIndex :=
      Int.toNat_of_nonneg (le_of_lt hpos)
    have hk1 : 1 ≤ s.historyIndex.toNat := by omega
    obtain ⟨u1, u2, u3, u4⟩ := undoN_spec s.historyIndex.toNat s (by rw [hk])
    have hu0 : (undoN s.historyIndex.toNat s).historyIndex = 0 := by
      rw [u2, hk]; ring
    have hnoop : undo (undoN s.historyIndex.toNat s)
        = undoN s.historyIndex.toNat s := by
      rw [undo, if_neg]
      rw [hu0]
      omega
    refine ⟨?_, hnoop⟩
    have hlen1 : 1 ≤ s.history.length := by omega
    obtain ⟨r1, r2, r3⟩ := redoN_spec s.historyIndex.toNat (undoN s.historyIndex.toNat s)
      (by rw [hu0, u1, hk]; omega)
    rcases r3 with ⟨hj0, _⟩ | ⟨_, ht⟩
    · omega
    · have hkk : ((undoN s.historyIndex.toNat s).historyIndex
          + (s.historyIndex.toNat : Int)).toNat = s.history.length - 1 := by
        rw [hu0]
        omega
      rw [ht, u1, hkk]
      have hget : s.history[s.history.length - 1]? = s.history.getLast? := by
        rw [List.getLast?_eq_getElem?]
      obtain ⟨snap, hsnap⟩ : ∃ snap, s.history.getLast? = some snap := by
        cases hhl : s.history.getLast? with
        | none =>
            rw [List.getLast?_eq_none_iff] at hhl
            simp [hhl] at hlen1
        | some snap => exact ⟨snap, rfl⟩
      rw [hget, hsnap]
      simp only [Option.getD_some]
      rw [obsList_map_restoreTube]
      exact hlast snap hsnap
  · have hk0 : s.historyIndex.toNat = 0 := by omega
    rw [hk0]
    refine ⟨rfl, ?_⟩
    rw [undoN, undo, if_neg hpos]


theorem addTube_snap_congr (p : Params) (a b : ℝ) (newId : Nat) (s : AppState)
    (h : snapAngleFunc true a = snapAngleFunc true b) :
    addTube { p with angle := a, snapToAngle := true } newId s
      = addTube { p with angle := b, snapToAngle := true } newId s := by
  unfold addTube
  simp only [h, if_true]

/-- Claim C3 (amended): with snapping enabled the joint angle is replaced
by the nearest value of the fixed set {0, 30, 45, 60, 90, 120, 135, 150,
180}, with an exact tie broken toward the first value encountered in
ascending order (equivalently, the smaller one); in particular input angle
37 degrees snaps to 30 and yields the same pose as angle 30 degrees, and
input angle 15 degrees snaps to the tie-break winner between 0 and 30,
namely 0, yielding the same pose as angle 0. -/
theorem c3_snap_nearest_amended (a : ℝ) :
    (snapAngleFunc true a ∈ snapAngles ∧
     (∀ c ∈ snapAngles, |snapAngleFunc true a - a| ≤ |c - a|) ∧
     (∀ c ∈ snapAngles, |c - a| = |snapAngleFunc true a - a| → snapAngleFunc true a ≤ c)) ∧
    snapAngleFunc true 37 = 30 ∧ snapAngleFunc true 15 = 0 ∧
    (∀ (p : Params) (newId : Nat) (s : AppState),
       addTube { p with angle := 37, snapToAngle := true } newId s
         = addTube { p with angle := 30, snapToAngle := true } newId s) ∧
    (∀ (p : Params) (newId : Nat) (s : AppState),
       addTube { p with angle := 15, snapToAngle := true } newId s
         = addTube { p with angle := 0, snapToAngle := true } newId s) := by
  refine ⟨⟨snap_mem a, snap_min a, snap_tie a⟩, snap_val_37, snap_val_15, ?_, ?_⟩
  · intro p newId s
    exact addTube_snap_congr p 37 30 newId s (by rw [snap_val_37, snap_val_30])
  · intro p newId s
    exact addTube_snap_congr p 15 0 newId s (by rw [snap_val_15, snap_val_0])

/-- Claim C3 counterexample: input angle 37 does not snap to 45 and does
not yield the same pose as 45 — it snaps to 30 (which is strictly nearer:
7 vs 8 degrees away), and the resulting rotation differs from the one
obtained with input 45. -/
theorem c3_snap37_counterexample :
    snapAngleFunc true 37 = 30 ∧ (30 : ℝ) ≠ 45 ∧
    ((addTube { demoParams with angle := 37, snapToAngle := true } 2
        (addTube demoParams 1 initState)).tubes[1]?).map (fun t => t.rotation)
      ≠ ((addTube { demoParams with angle := 45, snapToAngle := true } 2
        (addTube demoParams 1 initState)).tubes[1]?).map (fun t => t.rotation) := by
  refine ⟨snap_val_37, by norm_num, ?_⟩
  have h37 : ((addTube { demoParams with angle := 37, snapToAngle := true } 2
      (addTube demoParams 1 initState)).tubes[1]?).map (fun t => t.rotation)
        = some ⟨0, 0 + 30 * π / 180, 0⟩ := by
    simp [addTube, demoParams, initState, addToHistory, cloneTube, snap_val_37]
  have h45 : ((addTube { demoParams with angle := 45, snapToAngle := true } 2
      (addTube demoParams 1 initState)).tubes[1]?).map (fun t => t.rotation)
        = some ⟨0, 0 + 45 * π / 180, 0⟩ := by
    simp [addTube, demoParams, initState, addToHistory, cloneTube, snap_val_45]
  rw [h37, h45]
  intro hcontra
  simp only [Option.some.injEq, Vec3.mk.injEq] at hcontra
  have h2 := hcontra.2.1
  apply Real.pi_ne_zero
  linarith

/-- Claim C4 counterexample: in the spec scenario (segment A 50x30x3x100
at the default pose, then segment B of length 100 at a 90 degree joint),
B's position is exactly (50, 0, 50), not approximately (0, 0, 150). -/
theorem c4_position_counterexample :
    ((addTube demoParams 2 (addTube demoParams 1 initState)).tubes[1]?).map
        (fun t => t.position) = some ⟨50, 0, 50⟩ ∧
    (⟨50, 0, 50⟩ : Vec3) ≠ ⟨0, 0, 150⟩ := by
  constructor
  · have h : (90 : ℝ) * π / 180 = π / 2 := by ring
    simp [addTube, demoParams, initState, addToHistory, cloneTube, applyEuler,
          rotXv, rotYv, rotZv, Vec3.add_def, Vec3.mk.injEq, h]
    norm_num
  · intro hcontra
    simp only [Vec3.mk.injEq] at hcontra
    norm_num at hcontra

/-- Claim C4 (amended): in the spec scenario, segment A keeps the default
pose (origin, identity rotation) and segment B ends up with position
(50, 0, 50) and yaw exactly 90 degrees (pi/2 radians). -/
theorem c4_scenario_amended :
    ((addTube demoParams 2 (addTube demoParams 1 initState)).tubes[0]?).map
        (fun t => (t.position, t.rotation)) = some (⟨0, 0, 0⟩, ⟨0, 0, 0⟩) ∧
    ((addTube demoParams 2 (addTube demoParams 1 initState)).tubes[1]?).map
        (fun t => (t.position, t.rotation)) = some (⟨50, 0, 50⟩, ⟨0, π / 2, 0⟩) := by
  have h : (90 : ℝ) * π / 180 = π / 2 := by ring
  constructor
  · simp [addTube, demoParams, initState, addToHistory, cloneTube]
  · simp [addTube, demoParams, initState, addToHistory, cloneTube, applyEuler,
          rotXv, rotYv, rotZv, Vec3.add_def, Vec3.mk.injEq, Prod.ext_iff, h]
    norm_num

/-- Witness for the amended C3 theorem at concrete inputs: 37 snaps into
the set and at least as near as 45; the tie at 15 resolves below 0. -/
theorem c3_snap_nearest_amended_witness :
    snapAngleFunc true 37 ∈ snapAngles ∧
    |snapAngleFunc true 37 - 37| ≤ |45 - 37| ∧
    snapAngleFunc true 15 ≤ 0 := by
  refine ⟨(c3_snap_nearest_amended 37).1.1,
    (c3_snap_nearest_amended 37).1.2.1 45 (by norm_num [snapAngles]), ?_⟩
  refine (c3_snap_nearest_amended 15).1.2.2 0 (by norm_num [snapAngles]) ?_
  rw [snap_val_15]

/-- Claim C6 counterexample: construction never fails — a segment with
width 10, height 10 and thickness 10 (violating thickness < min(w,h)/2 = 5)
is accepted and enters the assembly. -/
theorem c6_invalid_dims_counterexample :
    (addTube badParams 1 initState).tubes.length = 1 ∧
    ((addTube badParams 1 initState).tubes[0]?).map
        (fun t => (t.width, t.height, t.thickness)) = some (10, 10, 10) ∧
    ¬ ((10 : ℝ) < min 10 10 / 2) := by
  refine ⟨?_, ?_, by norm_num⟩
  · simp [addTube, badParams, initState, addToHistory, cloneTube]
  · simp [addTube, badParams, initState, addToHistory, cloneTube]

/-- Claim C6 (amended): neither the Tube constructor nor addTube validates
dimensions — for every parameter set, construction succeeds and one segment
with exactly the given dimensions (square type duplicating width into
height) is appended to the assembly. -/
theorem c6_no_validation_amended (p : Params) (newId : Nat) (s : AppState) :
    (addTube p newId s).tubes.length = s.tubes.length + 1 ∧
    ((addTube p newId s).tubes.getLast?).map
        (fun t => (t.width, t.height, t.thickness, t.length)) =
      some (if p.tubeType = "square" then p.width else p.width,
            if p.tubeType = "square" then p.width else p.height,
            p.thickness, p.length) := by
  unfold addTube addToHistory
  cases h : s.tubes.getLast? with
  | none => simp [List.getLast?_concat]
  | some lastTube => simp [List.getLast?_concat]

/-- Claim C7 counterexample: each exported record carries an extra "type"
field besides the six claimed ones, so the field set is not exactly
{width, height, thickness, length, position, rotation}. -/
theorem c7_type_field_counterexample :
    (exportData "rectangular"
        [{ id := 1, width := 50, height := 30, thickness := 3, length := 100,
           position := ⟨0, 0, 0⟩, rotation := ⟨0, 0, 0⟩, isSelected := false }]).map recordKeys
      = [["type", "width", "height", "thickness", "length", "position", "rotation"]] ∧
    "type" ∉ ["width", "height", "thickness", "length", "position", "rotation"] := by
  constructor
  · rfl
  · simp

/-- Claim C7 (amended): export produces exactly one record per segment in
chain order; each record has exactly the fields {type, width, height,
thickness, length, position:{x,y,z}, rotation:{x,y,z}}, with "type"
holding the current tube-type UI setting and the other values equal to the
segment's fields. -/
theorem c7_export_amended (tubeType : String) (tubes : List Tube) :
    (exportData tubeType tubes).length = tubes.length ∧
    (∀ (i : Nat) (t : Tube), tubes[i]? = some t →
      ∃ r, (exportData tubeType tubes)[i]? = some r ∧
        recordKeys r = ["type", "width", "height", "thickness", "length",
                        "position", "rotation"] ∧
        recordField "type" r = some (JValue.str tubeType) ∧
        recordField "width" r = some (JValue.num t.width) ∧
        recordField "height" r = some (JValue.num t.height) ∧
        recordField "thickness" r = some (JValue.num t.thickness) ∧
        recordField "length" r = some (JValue.num t.length) ∧
        recordField "position" r = some (JValue.obj
          [("x", JValue.num t.position.x), ("y", JValue.num t.position.y),
           ("z", JValue.num t.position.z)]) ∧
        recordField "rotation" r = some (JValue.obj
          [("x", JValue.num t.rotation.x), ("y", JValue.num t.rotation.y),
           ("z", JValue.num t.rotation.z)])) := by
  constructor
  · simp [exportData]
  · intro i t ht
    refine ⟨JValue.obj
      [("type", JValue.str tubeType), ("width", JValue.num t.width),
       ("height", JValue.num t.height), ("thickness", JValue.num t.thickness),
       ("length", JValue.num t.length),
       ("position", JValue.obj
         [("x", JValue.num t.position.x), ("y", JValue.num t.position.y),
          ("z", JValue.num t.position.z)]),
       ("rotation", JValue.obj
         [("x", JValue.num t.rotation.x), ("y", JValue.num t.rotation.y),
          ("z", JValue.num t.rotation.z)])], ?_, ?_⟩
    · simp [exportData, List.getElem?_map, ht]
    · simp [recordKeys, recordField, List.find?]

/-- Claim C10: removeTube with an id that matches no segment leaves the
entire state unchanged — tubes, selection and the history stack — and in
particular pushes no history entry. -/
theorem c10_remove_missing_noop (tubeId : Nat) (s : AppState)
    (h : ∀ t ∈ s.tubes, t.id ≠ tubeId) :
    removeTube tubeId s = s := by
  unfold removeTube
  have hfind : s.tubes.find? (fun t => t.id == tubeId) = none := by
    rw [List.find?_eq_none]
    intro t ht
    simpa using h t ht
  rw [hfind]

/-- Witness for C10 at a concrete input: removing id 5 from the empty
assembly changes nothing. -/
theorem c10_remove_missing_noop_witness : removeTube 5 initState = initState := by
  have h : ∀ t ∈ initState.tubes, t.id ≠ 5 := by
    intro t ht
    simp [initState] at ht
  exact c10_remove_missing_noop 5 initState h

/-- Witness for the amended C7 theorem at a concrete one-tube assembly. -/
theorem c7_export_amended_witness :
    (exportData "rectangular"
      [{ id := 1, width := 50, height := 30, thickness := 3, length := 100,
         position := ⟨0, 0, 0⟩, rotation := ⟨0, 0, 0⟩, isSelected := false }]).length = 1 ∧
    (∃ r, (exportData "rectangular"
      [{ id := 1, width := 50, height := 30, thickness := 3, length := 100,
         position := ⟨0, 0, 0⟩, rotation := ⟨0, 0, 0⟩, isSelected := false }])[0]? = some r ∧
      recordKeys r = ["type", "width", "height", "thickness", "length",
                      "position", "rotation"] ∧
      recordField "type" r = some (JValue.str "rectangular") ∧
      recordField "width" r = some (JValue.num 50) ∧
      recordField "height" r = some (JValue.num 30) ∧
      recordField "thickness" r = some (JValue.num 3) ∧
      recordField "length" r = some (JValue.num 100) ∧
      recordField "position" r = some (JValue.obj
        [("x", JValue.num 0), ("y", JValue.num 0), ("z", JValue.num 0)]) ∧
      recordField "rotation" r = some (JValue.obj
        [("x", JValue.num 0), ("y", JValue.num 0), ("z", JValue.num 0)])) := by
  have h := c7_export_amended "rectangular"
    [{ id := 1, width := 50, height := 30, thickness := 3, length := 100,
       position := ⟨0, 0, 0⟩, rotation := ⟨0, 0, 0⟩, isSelected := false }]
  exact ⟨h.1, h.2 0 _ rfl⟩

/-! ## Drag events -/

/-- Claim C9: a drag move event modifies only the dragged segment's
position — every segment's id, scalar dimensions and rotation are
unchanged, and any segment whose id is not the dragged one is entirely
unchanged. -/
theorem c9_drag_translates_only_dragged (ray : JRay) (s : AppState) (i : Nat) :
    ((onMouseMove ray s).tubes[i]?).map
        (fun t => (t.id, t.width, t.height, t.thickness, t.length, t.rotation))
      = (s.tubes[i]?).map
        (fun t => (t.id, t.width, t.height, t.thickness, t.length, t.rotation)) ∧
    (∀ t, s.tubes[i]? = some t → s.draggedTube ≠ some t.id →
      (onMouseMove ray s).tubes[i]? = some t) := by
  cases hd : s.draggedTube with
  | none => simp [onMouseMove, hd]
  | some d =>
      constructor
      · simp only [onMouseMove, hd, List.getElem?_map]
        cases ht : s.tubes[i]? with
        | none => rfl
        | some t =>
            by_cases hid : t.id = d
            · simp [hid]
            · simp [hid]
      · intro t ht hne
        have hid : t.id ≠ d := by
          intro h
          exact hne (by rw [h])
        simp [onMouseMove, hd, List.getElem?_map, ht, hid]

theorem intersect_downRay (a c : ℝ) :
    intersectPlane ⟨⟨a, 10, c⟩, ⟨0, -1, 0⟩⟩ floorPlane = some ⟨a, 0, c⟩ := by
  norm_num [intersectPlane, distanceToPlane, Vec3.dot, floorPlane, JRay.at]

theorem intersect_parallelRay : intersectPlane parallelRay floorPlane = none := by
  norm_num [intersectPlane, distanceToPlane, Vec3.dot, floorPlane, parallelRay]

/-- Claim C5 (behavior the code actually has, demonstrating the bug): in
a live drag session where the tube was carried to (2, 0, 3), a move event
whose pointer ray is parallel to the reference plane has no plane
intersection, yet the dragged tube is repositioned to (0, 0, 0) — the
default-initialised intersection point — instead of staying at (2, 0, 3):
the code tests the always-truthy `Vector3` object rather than the return
value of `intersectPlane`. -/
theorem c5_parallel_ray_code_behavior :
    ((midDragState.tubes[0]?).map (fun t => t.position) = some ⟨2, 0, 3⟩) ∧
    intersectPlane parallelRay floorPlane = none ∧
    (((onMouseMove parallelRay midDragState).tubes[0]?).map (fun t => t.position)
      = some ⟨0, 0, 0⟩) := by
  have hmid : (midDragState.tubes[0]?).map (fun t => t.position) = some ⟨2, 0, 3⟩ := by
    simp [midDragState, onMouseMove, onMouseDownHit, addTube, demoParams, initState,
          addToHistory, cloneTube, intersect_downRay]
  refine ⟨hmid, intersect_parallelRay, ?_⟩
  simp [midDragState, onMouseMove, onMouseDownHit, addTube, demoParams, initState,
        addToHistory, cloneTube, intersect_downRay, intersect_parallelRay]

/-- Witness for C9 at a concrete input: with no drag session open, a move
event leaves the single tube untouched. -/
theorem c9_drag_translates_only_dragged_witness :
    (onMouseMove parallelRay (addTube demoParams 1 initState)).tubes[0]?
      = some { id := 1, width := 50, height := 30, thickness := 3, length := 100,
               position := ⟨0, 0, 0⟩, rotation := ⟨0, 0, 0⟩, isSelected := false } := by
  refine (c9_drag_translates_only_dragged parallelRay (addTube demoParams 1 initState) 0).2
    { id := 1, width := 50, height := 30, thickness := 3, length := 100,
      position := ⟨0, 0, 0⟩, rotation := ⟨0, 0, 0⟩, isSelected := false } ?_ ?_
  · simp [addTube, demoParams, initState, addToHistory, cloneTube]
  · simp [addTube, demoParams, initState, addToHistory, cloneTube]

